import Mathlib

/-!
Verification of `src/3_state_cellular_automata.py`: a one-dimensional,
three-state cellular automaton.  The file embeds the two rule-table
decoders (the flat "spaghetti" script of lines 22-73 and the function
`three_state_lookup_table` of lines 103-135), the evolution engine
`three_state_spacetime_field` (lines 141-190) and the stateful class
`three_state_CA` (lines 220-286), and proves or refutes the specified
properties of the decoder, the evolution, validation, and the wrapper.

Cells are modelled as `Nat` (the validated range is {0,1,2}); lookup
dictionaries as association lists keyed by neighborhood pairs, in the
insertion order of the Python dict; the integer argument `time_steps`
as `Int` (its dynamic-typing prologue is modelled separately on a small
Python value type).
-/

/-- The base-3 digits of `n`, least significant first: the loop
`while rule_number > 0: rule_number, r = divmod(rule_number, 3); tern_nums.append(str(r))`
(lines 36-38 of the spaghetti script and 125-127 of `three_state_lookup_table`).
For `n = 0` the loop body never runs and the digit list is empty. -/
def ternDigits (n : Nat) : List Nat :=
  if h : n = 0 then [] else n % 3 :: ternDigits (n / 3)
termination_by n
decreasing_by omega

/-- The list of the 9 neighborhood tuples in lexicographic order (lines 32 and 122). -/
def neighborhoods : List (Nat × Nat) :=
  [(0, 0), (0, 1), (0, 2), (1, 0), (1, 1), (1, 2), (2, 0), (2, 1), (2, 2)]

/-- The spaghetti script's `in_ternary` string (lines 35-44): the digits joined
least-significant-first with NO reversal, padded with trailing `'0'` characters up to
9 characters when the length differs from 9 (Python's `'0' * padding` is empty for a
negative padding, matching truncated `Nat` subtraction). Digit characters are modelled
by their numeric value. -/
def spaghetti_in_ternary (n : Nat) : List Nat :=
  let d := ternDigits n
  if d.length ≠ 9 then d ++ List.replicate (9 - d.length) 0 else d

/-- The `in_ternary` string of `three_state_lookup_table` (lines 124-133): the digits
are reversed to most-significant-first (`''.join(reversed(tern_nums))`) and then
left-padded with `'0'` to width 9 by the format call (fill `'0'`, align `'>'`,
width 9; a string already of length ≥ 9 is left unchanged). -/
def fun_in_ternary (n : Nat) : List Nat :=
  let t := (ternDigits n).reverse
  List.replicate (9 - t.length) 0 ++ t

/-- The spaghetti script's `lookup_table` dict (lines 47-51): neighborhood `i` is
mapped to `in_ternary[i]` for `i` in `range(9)`, i.e. the zip of the neighborhood
list with the first 9 characters of `spaghetti_in_ternary`. (Python stores the digit
as a one-character string and applies `int` at every use, line 65; the table is
modelled directly at the numeric values.) -/
def spaghetti_lookup_table (n : Nat) : List ((Nat × Nat) × Nat) :=
  List.zip neighborhoods (spaghetti_in_ternary n)

/-- The dict built on line 135:
`dict(zip(neighborhoods, map(int, reversed(in_ternary))))` — the padded
most-significant-first string is reversed once more before being zipped with the
neighborhoods. The source function raises ValueError for `rule_number` outside
[0, 19682] (line 120); callers below perform that range check, and a negative
rule number is unrepresentable in `Nat`. -/
def three_state_lookup_table (n : Nat) : List ((Nat × Nat) × Nat) :=
  List.zip neighborhoods (fun_in_ternary n).reverse

/-- Python dict lookup `d[key]` over the association list, first match wins
(the keys built above are distinct, so the order is immaterial). `none` models
a KeyError. -/
def dictGet : List ((Nat × Nat) × Nat) → (Nat × Nat) → Option Nat
  | [], _ => none
  | (k, v) :: rest, key => if key = k then some v else dictGet rest key

/-- Dict lookup with a default, used to state the evolution totally; every use in
the evolution below is proved to hit an existing key (so the default never shows
through and the KeyError case is unreachable). -/
def dictGetD (d : List ((Nat × Nat) × Nat)) (key : Nat × Nat) (v0 : Nat) : Nat :=
  (dictGet d key).getD v0

lemma ternDigits_zero : ternDigits 0 = [] := by
  rw [ternDigits]
  simp

lemma ternDigits_pos (n : Nat) (h : n ≠ 0) :
    ternDigits n = n % 3 :: ternDigits (n / 3) := by
  rw [ternDigits]
  simp [h]

lemma replicate_getD (k i : Nat) : (List.replicate k (0 : Nat)).getD i 0 = 0 := by
  induction k generalizing i with
  | zero => simp
  | succ k ih =>
    cases i with
    | zero => simp [List.replicate]
    | succ i => simp [List.replicate, ih i]

lemma append_replicate_getD (d : List Nat) (k i : Nat) :
    (d ++ List.replicate k 0).getD i 0 = d.getD i 0 := by
  induction d generalizing i with
  | nil => simp [replicate_getD k i]
  | cons a d ih =>
    cases i with
    | zero => simp
    | succ i => simpa using ih i

/-- Digit extraction: the i-th collected remainder is the base-3 digit of weight 3^i. -/
lemma ternDigits_getD (n i : Nat) : (ternDigits n).getD i 0 = n / 3 ^ i % 3 := by
  induction i generalizing n with
  | zero =>
    by_cases h : n = 0
    · subst h; simp [ternDigits_zero]
    · simp [ternDigits_pos n h]
  | succ i ih =>
    by_cases h : n = 0
    · subst h; simp [ternDigits_zero, Nat.zero_div]
    · rw [ternDigits_pos n h]
      simp only [List.getD_cons_succ]
      rw [ih (n / 3), Nat.div_div_eq_div_mul]
      congr 2
      rw [pow_succ]
      ring

lemma ternDigits_length_le (k : Nat) : ∀ n : Nat, n < 3 ^ k → (ternDigits n).length ≤ k := by
  induction k with
  | zero =>
    intro n hn
    have : n = 0 := by simpa using Nat.lt_one_iff.mp (by simpa using hn)
    subst this
    simp [ternDigits_zero]
  | succ k ih =>
    intro n hn
    by_cases h : n = 0
    · subst h; simp [ternDigits_zero]
    · rw [ternDigits_pos n h]
      have hdiv : n / 3 < 3 ^ k := by
        have h3 : n < 3 ^ k * 3 := by
          calc n < 3 ^ (k + 1) := hn
          _ = 3 ^ k * 3 := by rw [pow_succ]
        exact Nat.div_lt_of_lt_mul (by linarith [h3])
      simpa using ih (n / 3) hdiv

/-- Reversing the function version's padded most-significant-first string gives back
exactly the spaghetti script's padded string: the reversal on line 128 and the one on
line 135 cancel. -/
lemma fun_in_ternary_reverse (n : Nat) :
    (fun_in_ternary n).reverse = spaghetti_in_ternary n := by
  unfold fun_in_ternary spaghetti_in_ternary
  simp only [List.length_reverse]
  rw [List.reverse_append, List.reverse_reverse, List.reverse_replicate]
  by_cases h : (ternDigits n).length = 9
  · simp [h]
  · simp [h]

/-- The two decoders build the same neighborhood-to-output table, for every rule
number: the function version's two reversals cancel, reproducing the spaghetti
least-significant-digit-first assignment. -/
lemma lookup_table_eq_spaghetti (n : Nat) :
    three_state_lookup_table n = spaghetti_lookup_table n := by
  unfold three_state_lookup_table spaghetti_lookup_table
  rw [fun_in_ternary_reverse]

lemma spaghetti_in_ternary_eq (n : Nat) :
    spaghetti_in_ternary n = ternDigits n ++ List.replicate (9 - (ternDigits n).length) 0 := by
  unfold spaghetti_in_ternary
  by_cases h : (ternDigits n).length = 9
  · simp [h]
  · simp [h]

lemma spaghetti_in_ternary_getD (n i : Nat) :
    (spaghetti_in_ternary n).getD i 0 = n / 3 ^ i % 3 := by
  rw [spaghetti_in_ternary_eq, append_replicate_getD, ternDigits_getD]

lemma spaghetti_in_ternary_length (n : Nat) (h : n ≤ 19682) :
    (spaghetti_in_ternary n).length = 9 := by
  have h9 : (ternDigits n).length ≤ 9 := by
    apply ternDigits_length_le 9 n
    norm_num
    omega
  rw [spaghetti_in_ternary_eq]
  simp
  omega

lemma list_len9 (l : List Nat) (h : l.length = 9) :
    l = [l.getD 0 0, l.getD 1 0, l.getD 2 0, l.getD 3 0, l.getD 4 0,
         l.getD 5 0, l.getD 6 0, l.getD 7 0, l.getD 8 0] := by
  obtain _ | ⟨a0, l⟩ := l; · simp at h
  obtain _ | ⟨a1, l⟩ := l; · simp at h
  obtain _ | ⟨a2, l⟩ := l; · simp at h
  obtain _ | ⟨a3, l⟩ := l; · simp at h
  obtain _ | ⟨a4, l⟩ := l; · simp at h
  obtain _ | ⟨a5, l⟩ := l; · simp at h
  obtain _ | ⟨a6, l⟩ := l; · simp at h
  obtain _ | ⟨a7, l⟩ := l; · simp at h
  obtain _ | ⟨a8, l⟩ := l; · simp at h
  obtain _ | ⟨a9, l⟩ := l
  · rfl
  · simp at h

/-- The table built by `three_state_lookup_table`, written out: the neighborhood at
lexicographic position i is mapped to the base-3 digit of `n` of weight 3^i (the
LEAST significant digit goes to neighborhood (0,0)). -/
lemma table_eq (n : Nat) (h : n ≤ 19682) :
    three_state_lookup_table n =
      [((0, 0), n % 3), ((0, 1), n / 3 % 3), ((0, 2), n / 9 % 3),
       ((1, 0), n / 27 % 3), ((1, 1), n / 81 % 3), ((1, 2), n / 243 % 3),
       ((2, 0), n / 729 % 3), ((2, 1), n / 2187 % 3), ((2, 2), n / 6561 % 3)] := by
  rw [lookup_table_eq_spaghetti]
  unfold spaghetti_lookup_table
  rw [list_len9 (spaghetti_in_ternary n) (spaghetti_in_ternary_length n h)]
  simp only [spaghetti_in_ternary_getD]
  norm_num [neighborhoods, List.zip]

/-- Looking up the neighborhood at lexicographic position i yields the digit of
weight 3^i. -/
lemma table_lookup_idx (n : Nat) (h : n ≤ 19682) (i : Nat) (hi : i < 9) :
    dictGet (three_state_lookup_table n) (neighborhoods.getD i ((0 : Nat), (0 : Nat)))
      = some (n / 3 ^ i % 3) := by
  rw [table_eq n h]
  interval_cases i <;>
    simp [neighborhoods, dictGet, Prod.ext_iff]

/-- The table is total on valid neighborhoods: the pair (a, b) with a, b ≤ 2 sits at
lexicographic position 3 * a + b and is mapped to that digit. -/
lemma table_total (n : Nat) (h : n ≤ 19682) (a b : Nat) (ha : a ≤ 2) (hb : b ≤ 2) :
    dictGet (three_state_lookup_table n) (a, b) = some (n / 3 ^ (3 * a + b) % 3) := by
  rw [table_eq n h]
  interval_cases a <;> interval_cases b <;>
    simp [dictGet, Prod.ext_iff]

/-- Every value the defaulted dict lookup can produce from a valid table is a base-3
digit, hence at most 2. -/
lemma dictGetD_le_two (n : Nat) (h : n ≤ 19682) (key : Nat × Nat) :
    dictGetD (three_state_lookup_table n) key 0 ≤ 2 := by
  rw [dictGetD, table_eq n h]
  simp only [dictGet]
  split_ifs <;> simp <;> omega

/-- Python list indexing `xs[j]`: a negative index counts from the end of the list.
The loops below only ever use indices in [-1, len - 1]; an index outside
[-len, len) would be a runtime IndexError, modelled by the default 0 (unreachable
in every use below). -/
def pyGet (xs : List Nat) (j : Int) : Nat :=
  if j < 0 then xs.getD (xs.length - (-j).toNat) 0 else xs.getD j.toNat 0

/-- One evolution step (lines 179-185 and 277-283): a new configuration of length
`length` whose cell i is `lookup[(current[i-1], current[i])]` — Python's `i - 1` is
`-1` at i = 0, so the left neighbor of cell 0 is the last cell. -/
def nextConfig (lookup : List ((Nat × Nat) × Nat)) (length : Nat) (cur : List Nat) :
    List Nat :=
  (List.range length).map fun (i : Nat) =>
    dictGetD lookup (pyGet cur ((i : Int) - 1), pyGet cur (i : Int)) 0

/-- The evolution loop (lines 178-188 and 276-286): runs `time_steps` iterations from
`cur`, returning the list of appended rows in order together with the final current
configuration. -/
def evolveN (lookup : List ((Nat × Nat) × Nat)) (length : Nat) :
    Nat → List Nat → List (List Nat) × List Nat
  | 0, cur => ([], cur)
  | t + 1, cur =>
    let new := nextConfig lookup length cur
    let r := evolveN lookup length t new
    (new :: r.1, r.2)

/-- The configuration validation of lines 166-168 and 249-251: every element must be
0, 1 or 2. -/
def validConfig (l : List Nat) : Bool :=
  l.all fun i => i == 0 || i == 1 || i == 2

/-- `three_state_spacetime_field` (lines 141-190), at the value level. The checks run
in source order: `time_steps < 0`, the `int(time_steps)` conversion (the identity on
the `Int` model; the dynamic-typing behavior of lines 157-163 on non-integer Python
values is modelled separately by `validate_time_steps` below), the initial-condition
check, then the table build, whose own range check (line 120) is the rule-number
check here. Row 0 of the returned field is the initial condition itself; the heap
aliasing of line 174 is modelled separately below. -/
def three_state_spacetime_field (rule_number : Nat) (initial_condition : List Nat)
    (time_steps : Int) : Except String (List (List Nat)) :=
  if time_steps < 0 then .error "time_steps must be a non-negative integer"
  else if validConfig initial_condition = false then
    .error "initial condition must be a list of 0s, 1s and 2s"
  else if rule_number > 19682 then
    .error "rule_number must be an int between 0 and 19682, inclusive"
  else
    let lookup := three_state_lookup_table rule_number
    let length := initial_condition.length
    .ok (initial_condition :: (evolveN lookup length time_steps.toNat initial_condition).1)

lemma pyGet_natCast (xs : List Nat) (i : Nat) : pyGet xs (i : Int) = xs.getD i 0 := by
  unfold pyGet
  simp

/-- Resolving Python's `current[i - 1]` against the mathematical description: for a
list of length L and a loop index i < L, the accessed element is the one at position
(i - 1) mod L, computed in the integers. -/
lemma pyGet_wrap (cur : List Nat) (L i : Nat) (hlen : cur.length = L) (hi : i < L) :
    pyGet cur ((i : Int) - 1) = cur.getD ((((i : Int) - 1) % (L : Int)).toNat) 0 := by
  have hL : 0 < L := by omega
  cases i with
  | zero =>
    have hcast : (((0 : Nat) : Int)) - 1 = -1 := by norm_num
    have hmod : (((0 : Nat) : Int) - 1) % (L : Int) = (L : Int) - 1 := by
      rw [hcast]
      have h2 : ((-1 : Int) + 1 * (L : Int)) % (L : Int) = (-1 : Int) % (L : Int) :=
        Int.add_mul_emod_self
      have h1 : (-1 : Int) + 1 * (L : Int) = (L : Int) - 1 := by ring
      rw [← h2, h1]
      apply Int.emod_eq_of_lt <;> omega
    rw [hmod]
    unfold pyGet
    rw [if_pos (by omega)]
    congr 1
    omega
  | succ j =>
    have hmod : (((j + 1 : Nat) : Int) - 1) % (L : Int) = (j : Int) := by
      have hcast : ((j + 1 : Nat) : Int) - 1 = (j : Int) := by push_cast; ring
      rw [hcast]
      apply Int.emod_eq_of_lt <;> omega
    rw [hmod]
    unfold pyGet
    rw [if_neg (by push_cast; omega)]
    congr 1
    push_cast
    omega

lemma nextConfig_length (d : List ((Nat × Nat) × Nat)) (L : Nat) (cur : List Nat) :
    (nextConfig d L cur).length = L := by
  simp [nextConfig]

lemma nextConfig_getD (d : List ((Nat × Nat) × Nat)) (L : Nat) (cur : List Nat)
    (i : Nat) (hi : i < L) :
    (nextConfig d L cur).getD i 0
      = dictGetD d (pyGet cur ((i : Int) - 1), pyGet cur (i : Int)) 0 := by
  unfold nextConfig
  rw [List.getD_eq_getElem _ _ (by simpa using hi)]
  simp

lemma evolveN_fst_length (d : List ((Nat × Nat) × Nat)) (L : Nat) :
    ∀ (t : Nat) (cur : List Nat), ((evolveN d L t cur).1).length = t := by
  intro t
  induction t with
  | zero => intro cur; simp [evolveN]
  | succ t ih => intro cur; simp [evolveN, ih]

/-- Splitting the evolution loop: running a + b iterations is running a iterations
and then b more from where the first run left off. -/
lemma evolveN_add (d : List ((Nat × Nat) × Nat)) (L : Nat) :
    ∀ (a b : Nat) (cur : List Nat),
      evolveN d L (a + b) cur
        = ((evolveN d L a cur).1 ++ (evolveN d L b (evolveN d L a cur).2).1,
           (evolveN d L b (evolveN d L a cur).2).2) := by
  intro a
  induction a with
  | zero => intro b cur; simp [evolveN]
  | succ a ih =>
    intro b cur
    have hshift : a + 1 + b = (a + b) + 1 := by omega
    rw [hshift]
    simp only [evolveN]
    rw [ih b (nextConfig d L cur)]
    rfl

/-- Row t + 1 of the field produced by the loop is one step applied to row t. -/
lemma field_succ (d : List ((Nat × Nat) × Nat)) (L : Nat) :
    ∀ (n t : Nat) (cur : List Nat), t < n →
      (cur :: (evolveN d L n cur).1).getD (t + 1) []
        = nextConfig d L ((cur :: (evolveN d L n cur).1).getD t []) := by
  intro n
  induction n with
  | zero => intro t cur ht; omega
  | succ n ih =>
    intro t cur ht
    cases t with
    | zero => simp [evolveN]
    | succ t =>
      have ht' : t < n := by omega
      have := ih t (nextConfig d L cur) ht'
      simpa [evolveN] using this

/-- The loop invariant: starting from a row of length L with all cells at most 2 and
looking values up in a valid rule table, every produced row has length L and all its
cells at most 2. -/
lemma evolveN_invariant (rule : Nat) (hrule : rule ≤ 19682) (L : Nat) :
    ∀ (n : Nat) (cur : List Nat), cur.length = L → (∀ c ∈ cur, c ≤ 2) →
      ∀ r ∈ (evolveN (three_state_lookup_table rule) L n cur).1,
        r.length = L ∧ ∀ c ∈ r, c ≤ 2 := by
  intro n
  induction n with
  | zero => intro cur _ _ r hr; simp [evolveN] at hr
  | succ n ih =>
    intro cur hlen hval r hr
    simp only [evolveN, List.mem_cons] at hr
    have hnewlen : (nextConfig (three_state_lookup_table rule) L cur).length = L :=
      nextConfig_length _ _ _
    have hnewval : ∀ c ∈ nextConfig (three_state_lookup_table rule) L cur, c ≤ 2 := by
      intro c hc
      simp only [nextConfig, List.mem_map] at hc
      obtain ⟨i, _, hi⟩ := hc
      rw [← hi]
      exact dictGetD_le_two rule hrule _
    rcases hr with hr | hr
    · subst hr; exact ⟨hnewlen, hnewval⟩
    · exact ih (nextConfig (three_state_lookup_table rule) L cur) hnewlen hnewval r hr

/-- The state of a `three_state_CA` instance (lines 220-257): the lookup table, the
accumulated spacetime field, the current configuration, and the cached length. The
`initial` attribute is the input list itself and plays no further role in the
dynamics. -/
structure three_state_CA where
  lookup_table : List ((Nat × Nat) × Nat)
  spacetime : List (List Nat)
  current_configuration : List Nat
  lengthAttr : Nat

/-- `three_state_CA.__init__` (lines 224-257): validates the initial condition
(lines 249-251), builds the table (line 253, whose internal range check is the
rule-number test here), stores the initial condition itself as row 0 of the
spacetime field (line 255) and a copy as the current configuration (line 256). -/
def three_state_CA.init (rule_number : Nat) (initial_condition : List Nat) :
    Except String three_state_CA :=
  if validConfig initial_condition = false then
    .error "initial condition must be a list of 0s, 1s, and 2s"
  else if rule_number > 19682 then
    .error "rule_number must be an int between 0 and 19682, inclusive"
  else
    .ok ⟨three_state_lookup_table rule_number, [initial_condition],
         initial_condition, initial_condition.length⟩

/-- `three_state_CA.evolve` (lines 259-286): the negative check runs before any
mutation of the instance, so a raise (the `some` error component) leaves the state
exactly as it was; otherwise the loop appends `time_steps` rows and advances the
current configuration. The result is the state after the call paired with the
raised error, if any. -/
def three_state_CA.evolve (s : three_state_CA) (time_steps : Int) :
    three_state_CA × Option String :=
  if time_steps < 0 then (s, some "time_steps must be a non-negative integer")
  else
    let r := evolveN s.lookup_table s.lengthAttr time_steps.toNat s.current_configuration
    ({ s with spacetime := s.spacetime ++ r.1, current_configuration := r.2 }, none)

/-- Identity of a Python list object in the heap model of
`three_state_spacetime_field`: `inputArr` is the caller's `initial_condition` object;
`stepArr t` is the fresh `new_configuration` list allocated at loop iteration t
(line 179). -/
inductive ArrId where
  | inputArr : ArrId
  | stepArr : Nat → ArrId
deriving DecidableEq

/-- The contents of every reachable list object: the caller's array and the arrays
the evolution loop allocates. -/
structure Heap where
  inputContents : List Nat
  stepContents : Nat → List Nat

/-- Dereference an array id in a heap. -/
def deref (h : Heap) : ArrId → List Nat
  | .inputArr => h.inputContents
  | .stepArr t => h.stepContents t

/-- Heap-level view of the field construction (lines 173-190):
`spacetime_field = [initial_condition]` (line 174) stores the caller's list OBJECT
itself as row 0 — no copy — while `current_configuration = initial_condition.copy()`
(line 175) takes a value copy, and each iteration appends a freshly allocated list
(lines 179, 188). These are the object ids of the returned rows, in order. -/
def spacetime_field_ids (time_steps : Nat) : List ArrId :=
  ArrId.inputArr :: (List.range time_steps).map ArrId.stepArr

/-- The contents of the lists the evolution loop allocates, given the value copy of
the initial condition it starts from: the array allocated at iteration t holds row
t + 1 of the value-level field. The caller's array is never written by the function. -/
def step_contents (lookup : List ((Nat × Nat) × Nat)) (length : Nat)
    (initial_copy : List Nat) (time_steps : Nat) : Nat → List Nat :=
  fun t => (evolveN lookup length time_steps initial_copy).1.getD t []

/-- A Python value, as far as the `time_steps` argument is concerned: an int, a str,
or None. (Floats are outside the embedding.) -/
inductive PyVal where
  | intV : Int → PyVal
  | strV : String → PyVal
  | noneV : PyVal

/-- A Python exception relevant to lines 157-163: ValueError or TypeError, with its
message. -/
inductive PyErr where
  | valueError : String → PyErr
  | typeError : String → PyErr
deriving DecidableEq

/-- Python's `time_steps < 0` (line 157): defined for ints; comparing a str or None
with an int raises TypeError. -/
def pyLtZero : PyVal → Except PyErr Bool
  | .intV n => .ok (decide (n < 0))
  | .strV _ => .error (.typeError "not supported between instances of str and int")
  | .noneV => .error (.typeError "not supported between instances of NoneType and int")

/-- Decimal digit accumulation for the string form of Python's `int()`. -/
def strToNatAux : List Char → Nat → Option Nat
  | [], acc => some acc
  | c :: cs, acc =>
    let n := c.toNat
    if 48 ≤ n ∧ n ≤ 57 then strToNatAux cs (acc * 10 + (n - 48)) else none

/-- Python's `int()` applied to a string: an optional minus sign followed by at least
one decimal digit parses to the signed value; anything else raises ValueError
(whitespace trimming and underscore separators are not modelled — no use below
depends on them). -/
def pyIntOfString (s : String) : Option Int :=
  match s.data with
  | [] => none
  | '-' :: cs => if cs = [] then none else (strToNatAux cs 0).map (fun n => -(n : Int))
  | cs => (strToNatAux cs 0).map (fun n => (n : Int))

/-- Python's `int(time_steps)` (line 161): the identity on ints; parses a decimal
string or raises ValueError; raises TypeError on None. -/
def pyInt : PyVal → Except PyErr Int
  | .intV n => .ok n
  | .strV s =>
    match pyIntOfString s with
    | some n => .ok n
    | none => .error (.valueError "invalid literal for int() with base 10")
  | .noneV => .error (.typeError "int() argument must be a string or a number, not NoneType")

/-- The `time_steps` validation prologue of `three_state_spacetime_field` and
`three_state_CA.evolve` (lines 157-163 and 268-274), at Python's dynamic-typing
level: first the comparison `time_steps < 0` is evaluated — any exception it raises
propagates, since it is outside the `try` — then `int(time_steps)` is attempted,
with `except ValueError` replacing ONLY a ValueError by the custom message; a
TypeError from `int()` propagates to the caller. -/
def validate_time_steps (time_steps : PyVal) : Except PyErr Int :=
  match pyLtZero time_steps with
  | .error e => .error e
  | .ok true => .error (.valueError "time_steps must be a non-negative integer")
  | .ok false =>
    match pyInt time_steps with
    | .ok n => .ok n
    | .error (.valueError _) =>
      .error (.valueError "time_steps must be a non-negative integer")
    | .error (.typeError m) => .error (.typeError m)

/-- On valid inputs all checks pass and the field is the initial condition followed by
the loop's rows. -/
lemma tssf_ok (rule : Nat) (h1 : rule ≤ 19682) (init : List Nat)
    (h2 : validConfig init = true) (n : Nat) :
    three_state_spacetime_field rule init (n : Int)
      = .ok (init :: (evolveN (three_state_lookup_table rule) init.length n init).1) := by
  unfold three_state_spacetime_field
  rw [if_neg (by omega), if_neg (by simp [h2]), if_neg (by omega)]
  simp

lemma validConfig_cells (l : List Nat) (h : validConfig l = true) : ∀ c ∈ l, c ≤ 2 := by
  intro c hc
  unfold validConfig at h
  rw [List.all_eq_true] at h
  have := h c hc
  simp at this
  omega

lemma getD_le_two (row : List Nat) (hcells : ∀ c ∈ row, c ≤ 2) (j : Nat) :
    row.getD j 0 ≤ 2 := by
  by_cases hj : j < row.length
  · rw [List.getD_eq_getElem _ _ hj]
    exact hcells _ (List.getElem_mem hj)
  · rw [List.getD_eq_default _ _ (by omega)]
    omega

/-- On a valid neighborhood the defaulted lookup agrees with the raising lookup: the
key is present. -/
lemma dictGet_total (rule : Nat) (h : rule ≤ 19682) (a b : Nat) (ha : a ≤ 2) (hb : b ≤ 2) :
    dictGet (three_state_lookup_table rule) (a, b)
      = some (dictGetD (three_state_lookup_table rule) (a, b) 0) := by
  rw [dictGetD, table_total rule h a b ha hb]
  rfl

lemma map_getD_range : ∀ l : List (List Nat),
    (List.range l.length).map (fun t => l.getD t []) = l := by
  intro l
  induction l with
  | nil => simp
  | cons a l ih =>
    rw [List.length_cons, List.range_succ_eq_map]
    simp only [List.map_cons, List.getD_cons_zero, List.map_map]
    have hcomp : ((fun t => (a :: l).getD t []) ∘ Nat.succ) = fun t => l.getD t [] := by
      funext t
      simp
    rw [hcomp, ih]

lemma spaghetti_in_ternary_explicit (n : Nat) (h : n ≤ 19682) :
    spaghetti_in_ternary n
      = [n % 3, n / 3 % 3, n / 9 % 3, n / 27 % 3, n / 81 % 3,
         n / 243 % 3, n / 729 % 3, n / 2187 % 3, n / 6561 % 3] := by
  rw [list_len9 (spaghetti_in_ternary n) (spaghetti_in_ternary_length n h)]
  simp only [spaghetti_in_ternary_getD]
  norm_num

/-- The padded most-significant-first string, written out. -/
lemma fun_in_ternary_explicit (n : Nat) (h : n ≤ 19682) :
    fun_in_ternary n
      = [n / 6561 % 3, n / 2187 % 3, n / 729 % 3, n / 243 % 3, n / 81 % 3,
         n / 27 % 3, n / 9 % 3, n / 3 % 3, n % 3] := by
  have hrev : fun_in_ternary n = (spaghetti_in_ternary n).reverse := by
    rw [← fun_in_ternary_reverse n, List.reverse_reverse]
  rw [hrev, spaghetti_in_ternary_explicit n h]
  rfl

/-- C1, counterexample. The claim says the digit at position 0 of the 9-digit
most-significant-first base-3 representation (the code's padded `in_ternary`) is the
output for neighborhood (0, 0). At rule index 1 that digit is 0, but the table maps
(0, 0) to 1 (the least significant digit), because line 135 reverses `in_ternary`
once more before zipping. -/
theorem C1_counterexample :
    dictGet (three_state_lookup_table 1) ((0 : Nat), (0 : Nat))
      ≠ some ((fun_in_ternary 1).getD 0 0) := by
  rw [table_eq 1 (by norm_num), fun_in_ternary_explicit 1 (by norm_num)]
  simp [dictGet]

/-- C1, amended: the table assigns the digits of the padded most-significant-first
string in REVERSED order — the digit at position p is the output for the neighborhood
at lexicographic position 8 - p; equivalently, the neighborhood at position i
receives the base-3 digit of weight 3^i. -/
theorem C1_rule_table_digit_order (rule p : Nat) (h : rule ≤ 19682) (hp : p < 9) :
    dictGet (three_state_lookup_table rule)
        (neighborhoods.getD (8 - p) ((0 : Nat), (0 : Nat)))
      = some ((fun_in_ternary rule).getD p 0) := by
  rw [fun_in_ternary_explicit rule h, table_eq rule h]
  interval_cases p <;> simp [neighborhoods, dictGet, Prod.ext_iff]

/-- C1, witness: the amended statement at rule index 5, position 3. -/
theorem C1_rule_table_digit_order_witness :
    dictGet (three_state_lookup_table 5)
        (neighborhoods.getD (8 - 3) ((0 : Nat), (0 : Nat)))
      = some ((fun_in_ternary 5).getD 3 0) :=
  C1_rule_table_digit_order 5 3 (by norm_num) (by norm_num)

/-- C3, counterexample to the claim as stated: there is NO rule index in [0, 19682]
on which the two decoders disagree — the function version's extra reversal at the
zip cancels its earlier reversal, reproducing the spaghetti assignment exactly. -/
theorem C3_counterexample :
    ¬ ∃ n : Nat, n ≤ 19682 ∧ spaghetti_lookup_table n ≠ three_state_lookup_table n := by
  rintro ⟨n, -, hne⟩
  exact hne (lookup_table_eq_spaghetti n).symm

/-- C3, amended: for every rule index the two implementations build bitwise identical
neighborhood-to-output tables (both assign the digit of weight 3^i to the
neighborhood at lexicographic position i). -/
theorem C3_implementations_agree (n : Nat) :
    spaghetti_lookup_table n = three_state_lookup_table n :=
  (lookup_table_eq_spaghetti n).symm

/-- C8: the rule-index-to-table mapping is injective on [0, 19682] — distinct indices
give tables differing on at least one neighborhood. -/
theorem C8_table_injective (a b : Nat) (ha : a ≤ 19682) (hb : b ≤ 19682) (hne : a ≠ b) :
    three_state_lookup_table a ≠ three_state_lookup_table b := by
  intro h
  rw [table_eq a ha, table_eq b hb] at h
  simp only [List.cons.injEq, Prod.mk.injEq, and_true, true_and, List.nil_eq] at h
  omega

/-- C8, witness: rules 0 and 1 give distinct tables. -/
theorem C8_table_injective_witness :
    three_state_lookup_table 0 ≠ three_state_lookup_table 1 :=
  C8_table_injective 0 1 (by norm_num) (by norm_num) (by norm_num)

/-- C2, counterexample. Line 174 stores the caller's list object itself as row 0
(`spacetime_field = [initial_condition]`); only the working copy of line 175 is
fresh. Mutating the caller's array after the call (here: its contents become [2]
instead of the original [0]) changes what row 0 dereferences to. -/
theorem C2_counterexample :
    deref ⟨[2], step_contents (three_state_lookup_table 0) 1 [0] 0⟩
        ((spacetime_field_ids 0).getD 0 (ArrId.stepArr 0))
      ≠ deref ⟨[0], step_contents (three_state_lookup_table 0) 1 [0] 0⟩
        ((spacetime_field_ids 0).getD 0 (ArrId.stepArr 0)) := by
  simp [spacetime_field_ids, deref]

/-- C2, amended: row 0 of the returned field is the caller's array object itself,
not a copy. With the caller's array unchanged, dereferencing the row ids gives
exactly the value-level field; after the caller mutates their array to v, row 0
dereferences to v (it has changed), while the remaining rows — freshly allocated by
the loop — are unaffected. -/
theorem C2_row_zero_aliases_input (lookup : List ((Nat × Nat) × Nat)) (L n : Nat)
    (init v : List Nat) :
    (spacetime_field_ids n).map (deref ⟨init, step_contents lookup L init n⟩)
        = init :: (evolveN lookup L n init).1
    ∧ (spacetime_field_ids n).map (deref ⟨v, step_contents lookup L init n⟩)
        = v :: (evolveN lookup L n init).1 := by
  have hrows : ∀ w : List Nat,
      (spacetime_field_ids n).map (deref ⟨w, step_contents lookup L init n⟩)
        = w :: (evolveN lookup L n init).1 := by
    intro w
    unfold spacetime_field_ids
    rw [List.map_cons, List.map_map]
    have hcomp : (deref ⟨w, step_contents lookup L init n⟩ ∘ ArrId.stepArr)
        = fun t => (evolveN lookup L n init).1.getD t [] := by
      funext t
      simp [deref, step_contents]
    rw [hcomp]
    have hlen : ((evolveN lookup L n init).1).length = n :=
      evolveN_fst_length lookup L n init
    rw [show List.range n = List.range ((evolveN lookup L n init).1).length from by rw [hlen],
        map_getD_range]
    simp [deref]
  exact ⟨hrows init, hrows v⟩

/-- C4: evaluation of the time_steps validation at the divergence points. The string
"3" converts to the non-negative integer 3, so per the claim evolution should
proceed; instead line 157 evaluates `"3" < 0`, which raises TypeError before any
conversion is attempted. For None the conversion is impossible (`int(None)` raises
TypeError, which the `except ValueError` of line 162 would not catch anyway), so per
the claim the call should fail with the InvalidTimeSteps ValueError; instead the
comparison on line 157 already raises TypeError. -/
theorem C4_time_steps_type_error :
    pyInt (PyVal.strV "3") = .ok 3
    ∧ validate_time_steps (PyVal.strV "3")
        = .error (.typeError "not supported between instances of str and int")
    ∧ validate_time_steps PyVal.noneV
        = .error (.typeError "not supported between instances of NoneType and int")
    ∧ pyInt PyVal.noneV
        = .error (.typeError "int() argument must be a string or a number, not NoneType") :=
  ⟨rfl, rfl, rfl, rfl⟩

/-- C10: `three_state_CA.evolve` is atomic on validation failure — with a negative
integer argument, the negative check on line 268 raises before the loop runs, so the
instance state (spacetime field and current configuration included) is returned
exactly as it was, together with the InvalidTimeSteps error. -/
theorem C10_evolve_atomic_on_error (s : three_state_CA) (t : Int) (h : t < 0) :
    s.evolve t = (s, some "time_steps must be a non-negative integer") := by
  unfold three_state_CA.evolve
  rw [if_pos h]

/-- C10, witness: a concrete instance evolved by -1. -/
theorem C10_evolve_atomic_on_error_witness :
    three_state_CA.evolve ⟨[((0, 0), 0)], [[0]], [0], 1⟩ (-1)
      = (⟨[((0, 0), 0)], [[0]], [0], 1⟩, some "time_steps must be a non-negative integer") :=
  C10_evolve_atomic_on_error ⟨[((0, 0), 0)], [[0]], [0], 1⟩ (-1) (by norm_num)

/-- C6: on a valid rule index, valid configuration and n time steps, the call
succeeds and the field has exactly n + 1 rows, with row 0 equal to the initial
configuration. -/
theorem C6_row_count (rule : Nat) (h1 : rule ≤ 19682) (init : List Nat)
    (h2 : validConfig init = true) (n : Nat) :
    ∃ f, three_state_spacetime_field rule init (n : Int) = .ok f
      ∧ f.length = n + 1 ∧ f.head? = some init := by
  refine ⟨_, tssf_ok rule h1 init h2 n, ?_, rfl⟩
  simp [evolveN_fst_length]

/-- C6, witness: rule 8711 on [1, 0, 2, 1, 0] for 2 steps. -/
theorem C6_row_count_witness :
    ∃ f, three_state_spacetime_field 8711 [1, 0, 2, 1, 0] ((2 : Nat) : Int) = .ok f
      ∧ f.length = 2 + 1 ∧ f.head? = some [1, 0, 2, 1, 0] :=
  C6_row_count 8711 (by norm_num) [1, 0, 2, 1, 0] (by decide) 2

/-- C7: every row of the field has the length of the initial configuration, and
every cell is 0, 1 or 2. -/
theorem C7_cells_invariant (rule : Nat) (h1 : rule ≤ 19682) (init : List Nat)
    (h2 : validConfig init = true) (n : Nat) (f : List (List Nat))
    (hf : three_state_spacetime_field rule init (n : Int) = .ok f) :
    ∀ r ∈ f, r.length = init.length ∧ ∀ c ∈ r, c = 0 ∨ c = 1 ∨ c = 2 := by
  rw [tssf_ok rule h1 init h2 n] at hf
  simp only [Except.ok.injEq] at hf
  subst hf
  have hinit : ∀ c ∈ init, c ≤ 2 := validConfig_cells init h2
  intro r hr
  rcases List.mem_cons.mp hr with hr0 | hr1
  · subst hr0
    exact ⟨rfl, fun c hc => by have := hinit c hc; omega⟩
  · have := evolveN_invariant rule h1 init.length n init rfl hinit r hr1
    exact ⟨this.1, fun c hc => by have := this.2 c hc; omega⟩

/-- C7, witness: by the invariant, the first computed row of rule 8711 on
[1, 0, 2, 1, 0] after 2 steps has the input's length. -/
theorem C7_cells_invariant_witness :
    (((evolveN (three_state_lookup_table 8711)
          (([1, 0, 2, 1, 0] : List Nat)).length 2 [1, 0, 2, 1, 0]).1).getD 0 []).length
      = (([1, 0, 2, 1, 0] : List Nat)).length := by
  have H := C7_cells_invariant 8711 (by norm_num) [1, 0, 2, 1, 0] (by decide) 2 _
    (tssf_ok 8711 (by norm_num) [1, 0, 2, 1, 0] (by decide) 2)
  have hlen : ((evolveN (three_state_lookup_table 8711)
      (([1, 0, 2, 1, 0] : List Nat)).length 2 [1, 0, 2, 1, 0]).1).length = 2 :=
    evolveN_fst_length _ _ _ _
  have hmem : ((evolveN (three_state_lookup_table 8711)
        (([1, 0, 2, 1, 0] : List Nat)).length 2 [1, 0, 2, 1, 0]).1).getD 0 []
      ∈ ([1, 0, 2, 1, 0]
          :: (evolveN (three_state_lookup_table 8711)
                (([1, 0, 2, 1, 0] : List Nat)).length 2 [1, 0, 2, 1, 0]).1) := by
    apply List.mem_cons_of_mem
    rw [List.getD_eq_getElem _ _ (by omega)]
    exact List.getElem_mem (by omega)
  exact (H _ hmem).1

/-- C5: in the computed field, cell i of row t + 1 is the table output for the
neighborhood (row_t[(i - 1) mod L], row_t[i]); at i = 0 the left component is cell
L - 1 of the prior row (circular wraparound via Python's index -1). -/
theorem C5_wraparound_step (rule : Nat) (h1 : rule ≤ 19682) (init : List Nat)
    (h2 : validConfig init = true) (L n t i : Nat) (hL : init.length = L)
    (_hn : 1 ≤ n) (hi : i < L) (ht : t < n) (f : List (List Nat))
    (hf : three_state_spacetime_field rule init (n : Int) = .ok f) :
    dictGet (three_state_lookup_table rule)
        ((f.getD t []).getD ((((i : Int) - 1) % (L : Int)).toNat) 0,
         (f.getD t []).getD i 0)
      = some ((f.getD (t + 1) []).getD i 0) := by
  subst hL
  rw [tssf_ok rule h1 init h2 n] at hf
  simp only [Except.ok.injEq] at hf
  subst hf
  set d := three_state_lookup_table rule with hd
  set L := init.length with hLdef
  have hinit : ∀ c ∈ init, c ≤ 2 := validConfig_cells init h2
  set f := init :: (evolveN d L n init).1 with hfdef
  have hrow : ∀ s : Nat, s < n + 1 → (f.getD s []).length = L ∧ ∀ c ∈ f.getD s [], c ≤ 2 := by
    intro s hs
    have hflen : f.length = n + 1 := by
      simp [hfdef, evolveN_fst_length]
    have hmem : f.getD s [] ∈ f := by
      rw [List.getD_eq_getElem _ _ (by omega)]
      exact List.getElem_mem (by omega)
    rcases List.mem_cons.mp hmem with h0 | h1'
    · rw [h0]
      exact ⟨rfl, hinit⟩
    · exact evolveN_invariant rule h1 L n init rfl hinit _ h1'
  have hrow_t := hrow t (by omega)
  have hstep : f.getD (t + 1) [] = nextConfig d L (f.getD t []) :=
    field_succ d L n t init ht
  rw [hstep, nextConfig_getD d L _ i hi,
      pyGet_wrap (f.getD t []) L i hrow_t.1 hi, pyGet_natCast]
  have ha : (f.getD t []).getD ((((i : Int) - 1) % (L : Int)).toNat) 0 ≤ 2 :=
    getD_le_two _ hrow_t.2 _
  have hb : (f.getD t []).getD i 0 ≤ 2 :=
    getD_le_two _ hrow_t.2 _
  exact dictGet_total rule h1 _ _ ha hb

/-- C5, witness: rule 1, configuration [0], one step, cell 0 of row 1. -/
theorem C5_wraparound_step_witness :
    dictGet (three_state_lookup_table 1)
        (((([0] : List Nat)
              :: (evolveN (three_state_lookup_table 1) (([0] : List Nat)).length 1 [0]).1).getD
              0 []).getD (((((0 : Nat) : Int) - 1) % (((1 : Nat) : Nat) : Int)).toNat) 0,
         ((([0] : List Nat)
              :: (evolveN (three_state_lookup_table 1) (([0] : List Nat)).length 1 [0]).1).getD
              0 []).getD 0 0)
      = some (((([0] : List Nat)
              :: (evolveN (three_state_lookup_table 1) (([0] : List Nat)).length 1 [0]).1).getD
              (0 + 1) []).getD 0 0) :=
  C5_wraparound_step 1 (by norm_num) [0] (by decide) 1 1 0 0 rfl (by norm_num)
    (by norm_num) (by norm_num) _ (tssf_ok 1 (by norm_num) [0] (by decide) 1)

/-- C9: the stateful wrapper accumulates — evolving a steps and then b steps leaves
the same spacetime field (row for row) as a single evolve of a + b steps from a fresh
instance with the same rule and initial condition, with a + b + 1 rows in total. -/
theorem C9_evolve_accumulates (rule : Nat) (init : List Nat) (a b : Nat)
    (s0 : three_state_CA) (h : three_state_CA.init rule init = .ok s0) :
    ((s0.evolve (a : Int)).1.evolve (b : Int)).1.spacetime
        = (s0.evolve ((a : Int) + (b : Int))).1.spacetime
    ∧ ((s0.evolve (a : Int)).1.evolve (b : Int)).1.spacetime.length = a + b + 1 := by
  unfold three_state_CA.init at h
  by_cases hv : validConfig init = false
  · rw [if_pos hv] at h
    exact absurd h (by simp)
  rw [if_neg hv] at h
  by_cases hr : rule > 19682
  · rw [if_pos hr] at h
    exact absurd h (by simp)
  rw [if_neg hr] at h
  simp only [Except.ok.injEq] at h
  subst h
  have e1 : three_state_CA.evolve
        ⟨three_state_lookup_table rule, [init], init, init.length⟩ (a : Int)
      = (⟨three_state_lookup_table rule,
          [init] ++ (evolveN (three_state_lookup_table rule) init.length a init).1,
          (evolveN (three_state_lookup_table rule) init.length a init).2,
          init.length⟩, none) := by
    unfold three_state_CA.evolve
    rw [if_neg (by omega)]
    rfl
  have e2 : three_state_CA.evolve
        ⟨three_state_lookup_table rule,
         [init] ++ (evolveN (three_state_lookup_table rule) init.length a init).1,
         (evolveN (three_state_lookup_table rule) init.length a init).2,
         init.length⟩ (b : Int)
      = (⟨three_state_lookup_table rule,
          ([init] ++ (evolveN (three_state_lookup_table rule) init.length a init).1)
            ++ (evolveN (three_state_lookup_table rule) init.length b
                  (evolveN (three_state_lookup_table rule) init.length a init).2).1,
          (evolveN (three_state_lookup_table rule) init.length b
             (evolveN (three_state_lookup_table rule) init.length a init).2).2,
          init.length⟩, none) := by
    unfold three_state_CA.evolve
    rw [if_neg (by omega)]
    rfl
  have e3 : three_state_CA.evolve
        ⟨three_state_lookup_table rule, [init], init, init.length⟩ ((a : Int) + (b : Int))
      = (⟨three_state_lookup_table rule,
          [init] ++ (evolveN (three_state_lookup_table rule) init.length (a + b) init).1,
          (evolveN (three_state_lookup_table rule) init.length (a + b) init).2,
          init.length⟩, none) := by
    unfold three_state_CA.evolve
    rw [if_neg (by omega)]
    have ht : ((a : Int) + (b : Int)).toNat = a + b := by omega
    rw [ht]
  rw [e1, e2, e3]
  constructor
  · show ([init] ++ (evolveN (three_state_lookup_table rule) init.length a init).1)
          ++ (evolveN (three_state_lookup_table rule) init.length b
                (evolveN (three_state_lookup_table rule) init.length a init).2).1
        = [init] ++ (evolveN (three_state_lookup_table rule) init.length (a + b) init).1
    rw [evolveN_add (three_state_lookup_table rule) init.length a b init,
        List.append_assoc]
  · show (([init] ++ (evolveN (three_state_lookup_table rule) init.length a init).1)
          ++ (evolveN (three_state_lookup_table rule) init.length b
                (evolveN (three_state_lookup_table rule) init.length a init).2).1).length
        = a + b + 1
    simp [evolveN_fst_length]

/-- C9, witness: rule 0 on [0, 1], evolving 1 then 2 steps versus 3 at once. -/
theorem C9_evolve_accumulates_witness :
    ((three_state_CA.evolve ⟨three_state_lookup_table 0, [[0, 1]], [0, 1], 2⟩
          ((1 : Nat) : Int)).1.evolve ((2 : Nat) : Int)).1.spacetime
        = (three_state_CA.evolve ⟨three_state_lookup_table 0, [[0, 1]], [0, 1], 2⟩
            (((1 : Nat) : Int) + ((2 : Nat) : Int))).1.spacetime
    ∧ ((three_state_CA.evolve ⟨three_state_lookup_table 0, [[0, 1]], [0, 1], 2⟩
          ((1 : Nat) : Int)).1.evolve ((2 : Nat) : Int)).1.spacetime.length = 1 + 2 + 1 :=
  C9_evolve_accumulates 0 [0, 1] 1 2
    ⟨three_state_lookup_table 0, [[0, 1]], [0, 1], 2⟩ rfl
